import Mathlib

/-!
Verification development for the gamified gym-attendance tracker
(`src/app.py`).  The derivation logic (streak, XP, leveling, quests,
achievements, heatmap) is embedded shallowly:

* calendar dates are modelled as integers counting days since a fixed
  epoch that falls on a Monday (so `d % 7 = 0` means Monday, matching the
  Monday-first row order used by the heatmap); `timedelta(days=1)` is `+ 1`;
* "today" and "first day of the current month", which the Python code reads
  from the wall clock (`datetime.now(TZ)`), are explicit parameters;
* Python `//` on a positive divisor is floor division, which coincides with
  `Int` division (`Int.ediv`, Lean's `/`) for positive divisors;
* `math.log2` is modelled as the exact real logarithm: for a nonnegative
  argument `int(x)` truncation coincides with `Int.floor`, and
  `⌊10 * Real.logb 2 m⌋ = Nat.log 2 (m ^ 10)` gives a computable form
  (proved below);
* a pandas `DataFrame` of check-ins is a `List CheckIn` ordered as read.
-/

namespace GymRPG

/-- One check-in row (table `checkins`): a calendar day, an intensity
label, a minute count and an optional note.  `created_at` is informational
only and not needed by any derivation. -/
structure CheckIn where
  day : ℤ
  intensity : String
  minutes : ℤ
  notes : String
deriving DecidableEq, Repr

/-- `INTENSITY_XP`: the fixed base-XP table from `src/app.py`. -/
def INTENSITY_XP : List (String × ℤ) :=
  [("Minimum (showed up)", 20),
   ("Standard", 50),
   ("Hard", 80),
   ("Recovery / Mobility", 25)]

/-- `INTENSITY_XP.get(r["intensity"], 30)`: base XP with default 30 for an
unrecognized label. -/
def intensityBase (intensity : String) : ℤ :=
  ((INTENSITY_XP.lookup intensity).getD 30)

/-- `minutes_bonus`: `min(30, max(0, int(minutes // 10) * 3))`. -/
def minutes_bonus (minutes : ℤ) : ℤ :=
  min 30 (max 0 (minutes / 10 * 3))

/-- `streak_bonus`: `min(40, int(math.log2(streak + 1) * 10))`.
With `math.log2` read as the exact real logarithm and `streak ≥ 0`,
`int(log2(streak+1) * 10) = ⌊10 * logb 2 (streak+1)⌋ = Nat.log 2 ((streak+1)^10)`
(theorem `natLog_pow_eq_floor_logb` below), which is the computable form
used here. -/
def streak_bonus (streak : ℕ) : ℤ :=
  min 40 ((Nat.log 2 ((streak + 1) ^ 10) : ℤ))

/-- `xp_needed_for_level`: total XP required to reach this level,
`150 * (level - 1) ** 2 + 200 * (level - 1)`. -/
def xp_needed_for_level (level : ℕ) : ℤ :=
  150 * ((level : ℤ) - 1) ^ 2 + 200 * ((level : ℤ) - 1)

/-- The `while` loop of `level_from_xp`: starting from `level`, keep
incrementing while `xp >= xp_needed_for_level(level + 1)`. -/
def level_loop (xp : ℤ) (level : ℕ) : ℕ :=
  if xp_needed_for_level (level + 1) ≤ xp then level_loop xp (level + 1) else level
termination_by xp.toNat + 1 - level
decreasing_by
  have h2 : (level : ℤ) ≤ xp := by
    have := ‹xp_needed_for_level (level + 1) ≤ xp›
    unfold xp_needed_for_level at this
    push_cast at this
    nlinarith [sq_nonneg ((level : ℤ))]
  omega

/-- `level_from_xp`: the loop starts at level 1. -/
def level_from_xp (xp : ℤ) : ℕ :=
  level_loop xp 1

/-- `progress_to_next_level`: returns `(lvl, lo, hi, (xp - lo) / max(1, hi - lo))`
with the fraction taken in exact rational arithmetic. -/
def progress_to_next_level (xp : ℤ) : ℕ × ℤ × ℤ × ℚ :=
  let lvl := level_from_xp xp
  let lo := xp_needed_for_level lvl
  let hi := xp_needed_for_level (lvl + 1)
  (lvl, lo, hi, ((xp : ℚ) - lo) / max 1 ((hi : ℚ) - lo))

/-- Clamp applied by `header_card`: `st.progress(min(1.0, max(0.0, p)))`. -/
def displayLevelProgress (xp : ℤ) : ℚ :=
  min 1 (max 0 (progress_to_next_level xp).2.2.2)

/-- The `while d in days` walk of `compute_streak`: count consecutive
present days going backward from `d`. -/
def walk (days : Finset ℤ) (d : ℤ) : ℕ :=
  if d ∈ days then walk days (d - 1) + 1 else 0
termination_by (days.filter (fun x => x ≤ d)).card
decreasing_by
  have hsub : days.filter (fun x => x ≤ d - 1) ⊆ days.filter (fun x => x ≤ d) := by
    intro x hx
    simp only [Finset.mem_filter] at hx ⊢
    exact ⟨hx.1, by omega⟩
  have hd : d ∈ days.filter (fun x => x ≤ d) := by
    simp only [Finset.mem_filter]
    exact ⟨‹d ∈ days›, le_refl d⟩
  have hnd : d ∉ days.filter (fun x => x ≤ d - 1) := by
    simp only [Finset.mem_filter]
    omega
  exact Finset.card_lt_card (Finset.ssubset_iff_of_subset hsub |>.mpr ⟨d, hd, hnd⟩)

/-- `compute_streak`: anchor at today if logged today, else at yesterday,
then walk backward while days are present. -/
def compute_streak (days : Finset ℤ) (today : ℤ) : ℕ :=
  walk days (if today ∈ days then today else today - 1)

/-- `set(df["day"].tolist())`: the set of logged days of a history. -/
def daysOf (df : List CheckIn) : Finset ℤ :=
  (df.map (fun r => r.day)).toFinset

/-- `compute_xp`: 0 for an empty history; otherwise the sum over records of
base XP plus minutes bonus, plus one global streak bonus computed from the
current streak.  `today` stands for `datetime.now(TZ).date()`. -/
def compute_xp (df : List CheckIn) (today : ℤ) : ℤ :=
  if df = [] then 0
  else
    (df.map (fun r => intensityBase r.intensity + minutes_bonus r.minutes)).sum
      + streak_bonus (compute_streak (daysOf df) today)

/-- Result shape of `quest_status`: the three `(current, target)` pairs,
keyed as in the returned dict. -/
structure QuestStatus where
  weekly : ℕ × ℕ
  monthly : ℕ × ℕ
  streak : ℕ × ℕ
deriving DecidableEq, Repr

/-- `quest_status`: weekly counts check-ins with `last7_start ≤ day ≤ today`
where `last7_start = today - 6`; monthly counts check-ins with
`day ≥ start_month`; the streak quest reports the current streak.
`monthStart` stands for `today.replace(day=1)`.  (For an empty frame the
Python code reuses the empty frame, which filters to the same empty
count.) -/
def quest_status (df : List CheckIn) (today monthStart : ℤ) : QuestStatus :=
  { weekly := ((df.filter (fun r => decide (today - 6 ≤ r.day) && decide (r.day ≤ today))).length, 5)
    monthly := ((df.filter (fun r => decide (monthStart ≤ r.day))).length, 20)
    streak := (compute_streak (daysOf df) today, 14) }

/-- Per-quest display progress from `quests_panel`:
`st.progress(min(1.0, cur / target))`. -/
def questProgress (cur target : ℕ) : ℚ :=
  min 1 ((cur : ℚ) / (target : ℚ))

/-- `month_count`: number of records with `day ≥ start` where `start` is the
first day of the current month (passed here as `monthStart`). -/
def month_count (df : List CheckIn) (monthStart : ℤ) : ℕ :=
  (df.filter (fun r => decide (monthStart ≤ r.day))).length

/-- The `Achievement` dataclass: key, title, description and a predicate
over `(df, xp, streak)`. -/
structure Achievement where
  key : String
  title : String
  desc : String
  predicate : List CheckIn → ℤ → ℕ → Bool

/-- `achievements()`: the fixed ordered list of seven achievements.
Descriptions are abbreviated; they carry no semantics. -/
def achievements (monthStart : ℤ) : List Achievement :=
  [⟨"first_blood", "First Check-in", "You showed up once.",
      fun df _ _ => decide (1 ≤ df.length)⟩,
   ⟨"streak_7", "7-Day Streak", "Seven days.",
      fun _ _ streak => decide (7 ≤ streak)⟩,
   ⟨"streak_30", "30-Day Streak", "A real system has formed.",
      fun _ _ streak => decide (30 ≤ streak)⟩,
   ⟨"month_14", "14 This Month", "You trained 14+ days in the current month.",
      fun df _ _ => decide (14 ≤ month_count df monthStart)⟩,
   ⟨"month_25", "25 This Month", "Relentless month.",
      fun df _ _ => decide (25 ≤ month_count df monthStart)⟩,
   ⟨"xp_1000", "1,000 XP", "You are doing.",
      fun _ xp _ => decide (1000 ≤ xp)⟩,
   ⟨"xp_5000", "5,000 XP", "You have built a machine.",
      fun _ xp _ => decide (5000 ≤ xp)⟩]

/-- `achievements_panel`: walks the list in declaration order appending each
achievement to `unlocked` when its predicate holds, else to `locked` —
i.e. a partition that preserves declaration order in both parts. -/
def achievements_panel (df : List CheckIn) (xp : ℤ) (streak : ℕ) (monthStart : ℤ) :
    List Achievement × List Achievement :=
  ((achievements monthStart).filter (fun a => a.predicate df xp streak),
   (achievements monthStart).filter (fun a => !(a.predicate df xp streak)))

/-- Start of the heatmap window: `today - timedelta(days=7*16-1)`. -/
def windowStart (today : ℤ) : ℤ :=
  today - (7 * 16 - 1)

/-- `pd.date_range(start, today, freq="D")`: the 112 consecutive window
days, oldest first. -/
def windowDays (today : ℤ) : List ℤ :=
  (List.range (7 * 16)).map (fun i : ℕ => windowStart today + (i : ℤ))

/-- Count for one window day: the `counts` dict starts at 0 for every
window day and is incremented once per record whose day matches. -/
def countFor (df : List CheckIn) (d : ℤ) : ℕ :=
  (df.filter (fun r => decide (r.day = d))).length

/-- Day-of-week row index, Monday = 0 — under the epoch-Monday date model,
`d % 7`. -/
def dowRow (d : ℤ) : ℤ :=
  d % 7

/-- Week column index of a window day: `(day - start) // 7`. -/
def weekCol (today d : ℤ) : ℤ :=
  (d - windowStart today) / 7

/-- The 7 × 16 grid built by `github_heatmap`: start from all-zero cells and
assign `grid[dow][week] = count` for each window day in turn. -/
def github_grid (df : List CheckIn) (today : ℤ) : ℤ × ℤ → ℕ :=
  (windowDays today).foldl
    (fun g d => Function.update g (dowRow d, weekCol today d) (countFor df d))
    (fun _ => 0)

/-- The emoji bucket scale `cell` of `github_heatmap`. -/
def cell (v : ℕ) : String :=
  if v = 0 then "⬛"
  else if v = 1 then "🟩"
  else if v = 2 then "🟦"
  else "🟪"

/-! ## Streak lemmas -/

theorem walk_mem (days : Finset ℤ) (d : ℤ) (h : d ∈ days) :
    walk days d = walk days (d - 1) + 1 := by
  rw [walk]
  simp [h]

theorem walk_not_mem (days : Finset ℤ) (d : ℤ) (h : d ∉ days) : walk days d = 0 := by
  rw [walk]
  simp [h]

theorem walk_mono {days days' : Finset ℤ} (hsub : days ⊆ days') (d : ℤ) :
    walk days d ≤ walk days' d := by
  induction d using walk.induct days' with
  | case1 x hx ih =>
    by_cases hxd : x ∈ days
    · rw [walk_mem days x hxd, walk_mem days' x hx]
      omega
    · rw [walk_not_mem days x hxd]
      omega
  | case2 x hx =>
    have hxd : x ∉ days := fun hc => hx (hsub hc)
    rw [walk_not_mem days x hxd, walk_not_mem days' x hx]

theorem walk_le_filter_card (days : Finset ℤ) (d : ℤ) :
    walk days d ≤ (days.filter (fun x => x ≤ d)).card := by
  induction d using walk.induct days with
  | case1 x hx ih =>
    rw [walk_mem days x hx]
    have hsub : days.filter (fun y => y ≤ x - 1) ⊆ days.filter (fun y => y ≤ x) := by
      intro y hy
      simp only [Finset.mem_filter] at hy ⊢
      exact ⟨hy.1, by omega⟩
    have hmem : x ∈ days.filter (fun y => y ≤ x) := by
      simp only [Finset.mem_filter]
      exact ⟨hx, le_refl x⟩
    have hnot : x ∉ days.filter (fun y => y ≤ x - 1) := by
      simp only [Finset.mem_filter]
      omega
    have hlt : (days.filter (fun y => y ≤ x - 1)).card < (days.filter (fun y => y ≤ x)).card :=
      Finset.card_lt_card (Finset.ssubset_iff_of_subset hsub |>.mpr ⟨x, hmem, hnot⟩)
    omega
  | case2 x hx =>
    rw [walk_not_mem days x hx]
    omega

theorem walk_le_card (days : Finset ℤ) (d : ℤ) : walk days d ≤ days.card :=
  le_trans (walk_le_filter_card days d) (Finset.card_le_card (Finset.filter_subset _ _))

theorem walk_run (days : Finset ℤ) (d : ℤ) :
    (∀ k : ℕ, k < walk days d → d - (k : ℤ) ∈ days) ∧ d - (walk days d : ℤ) ∉ days := by
  induction d using walk.induct days with
  | case1 x hx ih =>
    rw [walk_mem days x hx]
    refine ⟨fun k hk => ?_, ?_⟩
    · cases k with
      | zero => simpa using hx
      | succ j =>
        have hj := ih.1 j (by omega)
        have : x - ((j : ℤ) + 1) = x - 1 - (j : ℤ) := by ring
        rw [Nat.cast_succ, this]
        exact hj
    · have h2 := ih.2
      have : x - ((walk days (x - 1) : ℤ) + 1) = x - 1 - (walk days (x - 1) : ℤ) := by ring
      rw [Nat.cast_add, Nat.cast_one, this]
      exact h2
  | case2 x hx =>
    rw [walk_not_mem days x hx]
    exact ⟨fun k hk => absurd hk (by omega), by simpa using hx⟩

theorem compute_streak_mono {days days' : Finset ℤ} (hsub : days ⊆ days') (today : ℤ) :
    compute_streak days today ≤ compute_streak days' today := by
  unfold compute_streak
  by_cases h1 : today ∈ days
  · have h2 : today ∈ days' := hsub h1
    rw [if_pos h1, if_pos h2]
    exact walk_mono hsub today
  · by_cases h2 : today ∈ days'
    · rw [if_neg h1, if_pos h2, walk_mem days' today h2]
      exact le_trans (walk_mono hsub (today - 1)) (by omega)
    · rw [if_neg h1, if_neg h2]
      exact walk_mono hsub (today - 1)

theorem compute_streak_le_card (days : Finset ℤ) (today : ℤ) :
    compute_streak days today ≤ days.card := by
  unfold compute_streak
  split
  · exact walk_le_card days today
  · exact walk_le_card days (today - 1)

/-! ## Leveling lemmas -/

theorem xp_needed_strictMono {a b : ℕ} (ha : 1 ≤ a) (hab : a < b) :
    xp_needed_for_level a < xp_needed_for_level b := by
  unfold xp_needed_for_level
  have ha' : (1 : ℤ) ≤ (a : ℤ) := by exact_mod_cast ha
  have hab' : (a : ℤ) < (b : ℤ) := by exact_mod_cast hab
  nlinarith [sq_nonneg ((a : ℤ) + (b : ℤ) - 2)]

theorem xp_needed_mono {a b : ℕ} (ha : 1 ≤ a) (hab : a ≤ b) :
    xp_needed_for_level a ≤ xp_needed_for_level b := by
  rcases eq_or_lt_of_le hab with h | h
  · rw [h]
  · exact le_of_lt (xp_needed_strictMono ha h)

theorem level_loop_ge (xp : ℤ) (level : ℕ) : level ≤ level_loop xp level := by
  induction level using level_loop.induct xp with
  | case1 x hx ih =>
    rw [level_loop, if_pos hx]
    omega
  | case2 x hx =>
    rw [level_loop, if_neg hx]

theorem level_loop_lt_next (xp : ℤ) (level : ℕ) :
    xp < xp_needed_for_level (level_loop xp level + 1) := by
  induction level using level_loop.induct xp with
  | case1 x hx ih =>
    rw [level_loop, if_pos hx]
    exact ih
  | case2 x hx =>
    rw [level_loop, if_neg hx]
    omega

theorem level_loop_le_xp (xp : ℤ) (level : ℕ)
    (h : xp_needed_for_level level ≤ xp) :
    xp_needed_for_level (level_loop xp level) ≤ xp := by
  induction level using level_loop.induct xp with
  | case1 x hx ih =>
    rw [level_loop, if_pos hx]
    exact ih hx
  | case2 x hx =>
    rw [level_loop, if_neg hx]
    exact h

theorem level_loop_greatest (xp : ℤ) (level L : ℕ) (hstart : 1 ≤ level)
    (hL : xp_needed_for_level L ≤ xp) : L ≤ max level (level_loop xp level) := by
  induction level using level_loop.induct xp with
  | case1 x hx ih =>
    rw [level_loop, if_pos hx]
    have := ih (by omega)
    have hge := level_loop_ge xp (x + 1)
    omega
  | case2 x hx =>
    rw [level_loop, if_neg hx]
    simp only [max_self]
    by_contra hgt
    push_neg at hgt
    have : xp_needed_for_level (x + 1) ≤ xp_needed_for_level L :=
      xp_needed_mono (by omega) (by omega)
    omega

theorem level_from_xp_pos (xp : ℤ) : 1 ≤ level_from_xp xp :=
  level_loop_ge xp 1

theorem level_from_xp_le (xp : ℤ) (h : 0 ≤ xp) :
    xp_needed_for_level (level_from_xp xp) ≤ xp := by
  unfold level_from_xp
  apply level_loop_le_xp
  unfold xp_needed_for_level
  omega

theorem level_from_xp_lt_next (xp : ℤ) :
    xp < xp_needed_for_level (level_from_xp xp + 1) :=
  level_loop_lt_next xp 1

theorem level_from_xp_greatest (xp : ℤ) (L : ℕ) (hL1 : 1 ≤ L)
    (hL : xp_needed_for_level L ≤ xp) : L ≤ level_from_xp xp := by
  have := level_loop_greatest xp 1 L (le_refl 1) hL
  have hge := level_from_xp_pos xp
  unfold level_from_xp at *
  omega

theorem level_from_xp_eq (xp : ℤ) (L : ℕ) (hL1 : 1 ≤ L)
    (hlo : xp_needed_for_level L ≤ xp) (hhi : xp < xp_needed_for_level (L + 1)) :
    level_from_xp xp = L := by
  have h1 : L ≤ level_from_xp xp := level_from_xp_greatest xp L hL1 hlo
  have h2 : level_from_xp xp < L + 1 := by
    by_contra hge
    push_neg at hge
    have hx : 0 ≤ xp := by
      have : xp_needed_for_level L ≤ xp := hlo
      unfold xp_needed_for_level at this
      have h1L : (1 : ℤ) ≤ (L : ℤ) := by exact_mod_cast hL1
      nlinarith
    have := level_from_xp_le xp hx
    have hmono : xp_needed_for_level (L + 1) ≤ xp_needed_for_level (level_from_xp xp) :=
      xp_needed_mono (by omega) hge
    omega
  omega

/-! ## Streak-bonus lemmas -/

theorem natLog_pow_eq_floor_logb (m : ℕ) :
    (Nat.log 2 (m ^ 10) : ℤ) = ⌊Real.logb 2 (m : ℝ) * 10⌋ := by
  have h1 : Real.logb 2 ((m : ℝ) ^ 10) = 10 * Real.logb 2 (m : ℝ) := by
    rw [Real.logb_pow]
    norm_num
  have h2 : ⌊Real.logb 2 (((m ^ 10 : ℕ) : ℝ))⌋ = Int.log 2 (((m ^ 10 : ℕ) : ℝ)) := by
    have := Real.floor_logb_natCast (b := 2) (r := ((m ^ 10 : ℕ) : ℝ)) (by positivity)
    simpa using this
  have h3 : Int.log 2 (((m ^ 10 : ℕ) : ℝ)) = Nat.log 2 (m ^ 10) := Int.log_natCast 2 (m ^ 10)
  have h4 : ((m ^ 10 : ℕ) : ℝ) = (m : ℝ) ^ 10 := by push_cast; ring
  rw [← h3, ← h2, h4, h1, mul_comm]

theorem streak_bonus_eq_logb (streak : ℕ) :
    streak_bonus streak = min 40 ⌊Real.logb 2 ((streak : ℝ) + 1) * 10⌋ := by
  unfold streak_bonus
  rw [natLog_pow_eq_floor_logb (streak + 1)]
  push_cast
  ring_nf

theorem streak_bonus_mono {a b : ℕ} (h : a ≤ b) : streak_bonus a ≤ streak_bonus b := by
  unfold streak_bonus
  have hlog : Nat.log 2 ((a + 1) ^ 10) ≤ Nat.log 2 ((b + 1) ^ 10) :=
    Nat.log_mono_right (Nat.pow_le_pow_left (by omega) 10)
  omega

theorem streak_bonus_nonneg (streak : ℕ) : 0 ≤ streak_bonus streak := by
  unfold streak_bonus
  omega

theorem streak_bonus_zero : streak_bonus 0 = 0 := by
  unfold streak_bonus
  norm_num

/-! ## XP lemmas -/

theorem intensityBase_ge (s : String) : 20 ≤ intensityBase s := by
  unfold intensityBase INTENSITY_XP
  simp only [List.lookup]
  split
  · norm_num
  · split
    · norm_num
    · split
      · norm_num
      · split
        · norm_num
        · norm_num

theorem minutes_bonus_nonneg (m : ℤ) : 0 ≤ minutes_bonus m := by
  unfold minutes_bonus
  omega

theorem minutes_bonus_le (m : ℤ) : minutes_bonus m ≤ 30 := by
  unfold minutes_bonus
  omega

theorem minutes_bonus_mono {a b : ℤ} (h : a ≤ b) : minutes_bonus a ≤ minutes_bonus b := by
  unfold minutes_bonus
  have : a / 10 ≤ b / 10 := Int.ediv_le_ediv (by norm_num) h
  omega

/-- `compute_xp` satisfies the sum-plus-one-streak-bonus formula for every
history, the empty one included: for `df = []` both sides are `0` because
the streak of an empty day set is `0` and `streak_bonus 0 = 0`. -/
theorem compute_xp_eq (df : List CheckIn) (today : ℤ) :
    compute_xp df today =
      (df.map (fun r => intensityBase r.intensity + minutes_bonus r.minutes)).sum
        + streak_bonus (compute_streak (daysOf df) today) := by
  unfold compute_xp
  split
  · rename_i hdf
    subst hdf
    have hdays : daysOf ([] : List CheckIn) = (∅ : Finset ℤ) := rfl
    rw [hdays]
    have hstreak : compute_streak (∅ : Finset ℤ) today = 0 := by
      unfold compute_streak
      rw [if_neg (Finset.not_mem_empty today)]
      exact walk_not_mem _ _ (Finset.not_mem_empty _)
    rw [hstreak, streak_bonus_zero]
    simp
  · rfl

theorem daysOf_append (df : List CheckIn) (r : CheckIn) :
    daysOf df ⊆ daysOf (df ++ [r]) := by
  intro x hx
  unfold daysOf at *
  simp only [List.mem_toFinset, List.map_append, List.mem_append] at *
  exact Or.inl hx

theorem compute_xp_append_mono (df : List CheckIn) (today : ℤ) (r : CheckIn) :
    compute_xp df today ≤ compute_xp (df ++ [r]) today := by
  rw [compute_xp_eq, compute_xp_eq]
  have hsum :
      ((df ++ [r]).map (fun x => intensityBase x.intensity + minutes_bonus x.minutes)).sum =
        (df.map (fun x => intensityBase x.intensity + minutes_bonus x.minutes)).sum
          + (intensityBase r.intensity + minutes_bonus r.minutes) := by
    simp
  have hbase := intensityBase_ge r.intensity
  have hmb := minutes_bonus_nonneg r.minutes
  have hstreak : compute_streak (daysOf df) today ≤ compute_streak (daysOf (df ++ [r])) today :=
    compute_streak_mono (daysOf_append df r) today
  have hbonus := streak_bonus_mono hstreak
  omega

/-! ## Heatmap lemmas -/

theorem foldl_update_notkey {α β : Type _} [DecidableEq α] (f : ℤ → α) (v : ℤ → β)
    (l : List ℤ) (g : α → β) (k : α) (hk : ∀ x ∈ l, f x ≠ k) :
    (l.foldl (fun g x => Function.update g (f x) (v x)) g) k = g k := by
  induction l generalizing g with
  | nil => rfl
  | cons x t ih =>
    simp only [List.foldl_cons]
    rw [ih _ (fun e he => hk e (List.mem_cons_of_mem x he))]
    exact Function.update_noteq (fun h => hk x (List.mem_cons_self x t) h.symm) _ _

theorem foldl_update_key {α β : Type _} [DecidableEq α] (f : ℤ → α) (v : ℤ → β)
    (l : List ℤ) (g : α → β) (d : ℤ) (hd : d ∈ l)
    (hpair : l.Pairwise (fun a b => f a ≠ f b)) :
    (l.foldl (fun g x => Function.update g (f x) (v x)) g) (f d) = v d := by
  induction l generalizing g with
  | nil => exact absurd hd (List.not_mem_nil d)
  | cons x t ih =>
    simp only [List.foldl_cons]
    by_cases hdt : d ∈ t
    · exact ih _ hdt (List.Pairwise.of_cons hpair)
    · have hdx : d = x := by
        rcases List.mem_cons.mp hd with h | h
        · exact h
        · exact absurd h hdt
      subst hdx
      rw [foldl_update_notkey f v t _ (f d)
        (fun e he => (List.pairwise_cons.mp hpair).1 e he |>.symm)]
      exact Function.update_same _ _ _

theorem windowDays_mem (today d : ℤ) :
    d ∈ windowDays today ↔ today - 111 ≤ d ∧ d ≤ today := by
  unfold windowDays windowStart
  rw [List.mem_map]
  constructor
  · rintro ⟨i, hi, rfl⟩
    have := List.mem_range.mp hi
    omega
  · rintro ⟨h1, h2⟩
    refine ⟨(d - (today - (7 * 16 - 1))).toNat, List.mem_range.mpr (by omega), by omega⟩

theorem windowDays_length (today : ℤ) : (windowDays today).length = 112 := by
  unfold windowDays
  rw [List.length_map, List.length_range]

theorem windowDays_pairwise_key (today : ℤ) :
    (windowDays today).Pairwise
      (fun a b => (dowRow a, weekCol today a) ≠ (dowRow b, weekCol today b)) := by
  unfold windowDays
  refine List.Pairwise.map _ ?_ (List.pairwise_lt_range (7 * 16))
  intro i j hij heq
  rw [Prod.mk.injEq] at heq
  unfold dowRow weekCol windowStart at heq
  obtain ⟨hdow, hweek⟩ := heq
  omega

theorem github_grid_eq (df : List CheckIn) (today d : ℤ) (hd : d ∈ windowDays today) :
    github_grid df today (dowRow d, weekCol today d) = countFor df d := by
  unfold github_grid
  exact foldl_update_key (fun x => (dowRow x, weekCol today x)) (countFor df)
    (windowDays today) _ d hd (windowDays_pairwise_key today)

theorem grid_cover (today row col : ℤ) (hrow : 0 ≤ row ∧ row < 7)
    (hcol : 0 ≤ col ∧ col < 16) :
    ∃ d ∈ windowDays today, dowRow d = row ∧ weekCol today d = col := by
  refine ⟨windowStart today + (7 * col + (row - windowStart today) % 7), ?_, ?_, ?_⟩
  · rw [windowDays_mem]
    unfold windowStart
    omega
  · unfold dowRow windowStart
    omega
  · unfold weekCol
    omega

/-! ## Achievement lemmas -/

theorem panel_unlocked_key_mem (df : List CheckIn) (xp : ℤ) (streak : ℕ) (ms : ℤ)
    (k : String) :
    k ∈ (achievements_panel df xp streak ms).1.map (fun a => a.key) ↔
      ∃ a ∈ achievements ms, a.predicate df xp streak = true ∧ a.key = k := by
  unfold achievements_panel
  rw [List.mem_map]
  simp only [List.mem_filter]
  constructor
  · rintro ⟨a, ⟨ha, hp⟩, hk⟩
    exact ⟨a, ha, hp, hk⟩
  · rintro ⟨a, ha, hp, hk⟩
    exact ⟨a, ⟨ha, hp⟩, hk⟩

theorem panel_locked_key_mem (df : List CheckIn) (xp : ℤ) (streak : ℕ) (ms : ℤ)
    (k : String) :
    k ∈ (achievements_panel df xp streak ms).2.map (fun a => a.key) ↔
      ∃ a ∈ achievements ms, a.predicate df xp streak = false ∧ a.key = k := by
  unfold achievements_panel
  rw [List.mem_map]
  simp only [List.mem_filter, Bool.not_eq_true']
  constructor
  · rintro ⟨a, ⟨ha, hp⟩, hk⟩
    exact ⟨a, ha, hp, hk⟩
  · rintro ⟨a, ha, hp, hk⟩
    exact ⟨a, ⟨ha, hp⟩, hk⟩

theorem compute_streak_empty (today : ℤ) : compute_streak (∅ : Finset ℤ) today = 0 := by
  unfold compute_streak
  rw [if_neg (Finset.not_mem_empty today)]
  exact walk_not_mem _ _ (Finset.not_mem_empty _)

/-! ## Claim theorems -/

/-- C2: for every history, total XP equals the sum over records of (base XP
for the intensity — 20/50/80/25 for the four labels, 30 for anything else —
plus that record's minutes bonus) plus exactly one global streak bonus
computed from the current streak; an empty history yields total XP 0. -/
theorem C2_total_xp :
    (∀ (df : List CheckIn) (today : ℤ),
        compute_xp df today =
          (df.map (fun r => intensityBase r.intensity + minutes_bonus r.minutes)).sum
            + streak_bonus (compute_streak (daysOf df) today))
    ∧ intensityBase "Minimum (showed up)" = 20
    ∧ intensityBase "Standard" = 50
    ∧ intensityBase "Hard" = 80
    ∧ intensityBase "Recovery / Mobility" = 25
    ∧ (∀ s : String, s ≠ "Minimum (showed up)" → s ≠ "Standard" → s ≠ "Hard" →
        s ≠ "Recovery / Mobility" → intensityBase s = 30)
    ∧ (∀ today : ℤ, compute_xp [] today = 0) := by
  refine ⟨compute_xp_eq, by decide, by decide, by decide, by decide, ?_, fun today => rfl⟩
  intro s h1 h2 h3 h4
  unfold intensityBase INTENSITY_XP
  have e1 : (s == "Minimum (showed up)") = false := beq_eq_false_iff_ne.mpr h1
  have e2 : (s == "Standard") = false := beq_eq_false_iff_ne.mpr h2
  have e3 : (s == "Hard") = false := beq_eq_false_iff_ne.mpr h3
  have e4 : (s == "Recovery / Mobility") = false := beq_eq_false_iff_ne.mpr h4
  simp [List.lookup, e1, e2, e3, e4]

/-- C2 witness: the default base XP of 30 at the unrecognized label "Yoga",
via the universally quantified default clause of the theorem. -/
theorem C2_total_xp_witness : intensityBase "Yoga" = 30 :=
  C2_total_xp.2.2.2.2.2.1 "Yoga" (by decide) (by decide) (by decide) (by decide)

/-- C4: appending a check-in on a day not already logged never decreases
the total XP (for the same "today"). -/
theorem C4_xp_monotone (df : List CheckIn) (today : ℤ) (r : CheckIn)
    (h : r.day ∉ daysOf df) :
    compute_xp df today ≤ compute_xp (df ++ [r]) today :=
  compute_xp_append_mono df today r

/-- C4 witness: adding a first Standard 35-minute check-in to the empty
history on day 0 does not decrease total XP. -/
theorem C4_xp_monotone_witness :
    compute_xp [] 0 ≤ compute_xp ([] ++ [⟨0, "Standard", 35, ""⟩]) 0 :=
  C4_xp_monotone [] 0 ⟨0, "Standard", 35, ""⟩ (by simp [daysOf])

/-- C5: the global streak bonus equals `min(40, ⌊log2(streak + 1) * 10⌋)`
for every nonnegative streak; it never exceeds 40, and at streak 1000 the
cap binds: the uncapped value exceeds 40 and the bonus is exactly 40. -/
theorem C5_streak_bonus :
    (∀ n : ℕ, streak_bonus n = min 40 ⌊Real.logb 2 ((n : ℝ) + 1) * 10⌋)
    ∧ (∀ n : ℕ, streak_bonus n ≤ 40)
    ∧ streak_bonus 1000 = 40
    ∧ 40 < ⌊Real.logb 2 ((1000 : ℝ) + 1) * 10⌋ := by
  have hcap : 41 ≤ Nat.log 2 (1001 ^ 10) := by
    rw [← Nat.pow_le_iff_le_log (by norm_num) (by norm_num)]
    norm_num
  refine ⟨streak_bonus_eq_logb, ?_, ?_, ?_⟩
  · intro n
    unfold streak_bonus
    omega
  · unfold streak_bonus
    have he : ((1000 : ℕ) + 1) ^ 10 = 1001 ^ 10 := by norm_num
    rw [he]
    omega
  · have hb := natLog_pow_eq_floor_logb 1001
    push_cast at hb
    have he : ((1000 : ℝ) + 1) = (1001 : ℝ) := by norm_num
    rw [he, ← hb]
    exact_mod_cast (by omega : (40 : ℤ) < ((Nat.log 2 (1001 ^ 10) : ℕ) : ℤ))

/-- C6: the per-record minutes bonus is `min(30, max(0, (minutes // 10) * 3))`,
monotone in minutes, capped at 30, zero below 10 minutes, with
bonus(5)=0, bonus(10)=3, bonus(95)=27, bonus(150)=30. -/
theorem C6_minutes_bonus :
    (∀ m : ℤ, minutes_bonus m = min 30 (max 0 (m / 10 * 3)))
    ∧ (∀ a b : ℤ, a ≤ b → minutes_bonus a ≤ minutes_bonus b)
    ∧ (∀ m : ℤ, minutes_bonus m ≤ 30)
    ∧ (∀ m : ℤ, m < 10 → minutes_bonus m = 0)
    ∧ minutes_bonus 5 = 0 ∧ minutes_bonus 10 = 3
    ∧ minutes_bonus 95 = 27 ∧ minutes_bonus 150 = 30 := by
  refine ⟨fun m => rfl, fun a b h => minutes_bonus_mono h, minutes_bonus_le, ?_,
    by decide, by decide, by decide, by decide⟩
  intro m hm
  unfold minutes_bonus
  omega

/-- C6 witness: a 3-minute session earns no minutes bonus, via the
zero-below-10 clause of the theorem. -/
theorem C6_minutes_bonus_witness : minutes_bonus 3 = 0 :=
  C6_minutes_bonus.2.2.2.1 3 (by decide)

/-- C10: both loops are total, with the bounds the claim gives: the streak
walk counts at most `days.card` days (so the loop body runs at most
`card + 1` times), the level loop exits with `xp` strictly below the next
requirement, and the requirement grows without bound, which is what makes
the level search terminate for every XP. -/
theorem C10_termination :
    (∀ (days : Finset ℤ) (today : ℤ), compute_streak days today ≤ days.card)
    ∧ (∀ xp : ℤ, xp < xp_needed_for_level (level_from_xp xp + 1))
    ∧ (∀ bound : ℤ, ∃ L : ℕ, bound < xp_needed_for_level L) := by
  refine ⟨compute_streak_le_card, level_from_xp_lt_next, ?_⟩
  intro bound
  refine ⟨bound.toNat + 2, ?_⟩
  unfold xp_needed_for_level
  push_cast
  have h1 : bound ≤ (bound.toNat : ℤ) := Int.self_le_toNat bound
  nlinarith [sq_nonneg ((bound.toNat : ℤ) + 1)]

/-- C1 counterexample: the claim's concrete anchors are wrong for the
code's own formula `150*(L-1)^2 + 200*(L-1)`: the XP required for level 2
is 350 (not 200) and for level 3 is 1000 (not 650), and 200 XP gives
level 1 (not level 2). -/
theorem C1_counterexample :
    xp_needed_for_level 2 = 350 ∧ ¬ xp_needed_for_level 2 = 200
    ∧ xp_needed_for_level 3 = 1000 ∧ ¬ xp_needed_for_level 3 = 650
    ∧ level_from_xp 200 = 1 ∧ ¬ level_from_xp 200 = 2 := by
  have h2 : xp_needed_for_level 2 = 350 := by norm_num [xp_needed_for_level]
  have h3 : xp_needed_for_level 3 = 1000 := by norm_num [xp_needed_for_level]
  have hl : level_from_xp 200 = 1 :=
    level_from_xp_eq 200 1 (by norm_num) (by norm_num [xp_needed_for_level])
      (by norm_num [xp_needed_for_level])
  exact ⟨h2, by omega, h3, by omega, hl, by omega⟩

/-- C1 (amended): the XP required to reach level L is
`150*(L-1)^2 + 200*(L-1)` with req(1)=0, req(2)=350, req(3)=1000; for every
nonnegative XP total the current level is the largest L ≥ 1 with
XP ≥ req(L), so XP=0, XP=199 and XP=349 give level 1 and XP=350 gives
level 2; progress toward the next level is
`(xp - req(level)) / max(1, req(level+1) - req(level))`, clamped to [0,1]
for display. -/
theorem C1_level_curve :
    (∀ L : ℕ, xp_needed_for_level L = 150 * ((L : ℤ) - 1) ^ 2 + 200 * ((L : ℤ) - 1))
    ∧ xp_needed_for_level 1 = 0
    ∧ xp_needed_for_level 2 = 350
    ∧ xp_needed_for_level 3 = 1000
    ∧ (∀ xp : ℤ, 0 ≤ xp →
        1 ≤ level_from_xp xp
        ∧ xp_needed_for_level (level_from_xp xp) ≤ xp
        ∧ (∀ L : ℕ, 1 ≤ L → xp_needed_for_level L ≤ xp → L ≤ level_from_xp xp))
    ∧ level_from_xp 0 = 1 ∧ level_from_xp 199 = 1
    ∧ level_from_xp 349 = 1 ∧ level_from_xp 350 = 2
    ∧ (∀ xp : ℤ, (progress_to_next_level xp).2.2.2 =
        ((xp : ℚ) - ((xp_needed_for_level (level_from_xp xp) : ℤ) : ℚ)) /
          max 1 (((xp_needed_for_level (level_from_xp xp + 1) : ℤ) : ℚ)
            - ((xp_needed_for_level (level_from_xp xp) : ℤ) : ℚ)))
    ∧ (∀ xp : ℤ, displayLevelProgress xp = min 1 (max 0 (progress_to_next_level xp).2.2.2)
        ∧ 0 ≤ displayLevelProgress xp ∧ displayLevelProgress xp ≤ 1) := by
  refine ⟨fun L => rfl, by norm_num [xp_needed_for_level], by norm_num [xp_needed_for_level],
    by norm_num [xp_needed_for_level], ?_, ?_, ?_, ?_, ?_, fun xp => rfl, ?_⟩
  · intro xp hxp
    exact ⟨level_from_xp_pos xp, level_from_xp_le xp hxp,
      fun L hL1 hL => level_from_xp_greatest xp L hL1 hL⟩
  · exact level_from_xp_eq 0 1 (by norm_num) (by norm_num [xp_needed_for_level])
      (by norm_num [xp_needed_for_level])
  · exact level_from_xp_eq 199 1 (by norm_num) (by norm_num [xp_needed_for_level])
      (by norm_num [xp_needed_for_level])
  · exact level_from_xp_eq 349 1 (by norm_num) (by norm_num [xp_needed_for_level])
      (by norm_num [xp_needed_for_level])
  · exact level_from_xp_eq 350 2 (by norm_num) (by norm_num [xp_needed_for_level])
      (by norm_num [xp_needed_for_level])
  · intro xp
    exact ⟨rfl, le_min (by norm_num) (le_max_left 0 _), min_le_left 1 _⟩

/-- C1 witness: at the concrete nonnegative total 500 the level's own
requirement is met: `req(level_from_xp 500) ≤ 500`. -/
theorem C1_level_curve_witness : xp_needed_for_level (level_from_xp 500) ≤ 500 :=
  (C1_level_curve.2.2.2.2.1 500 (by norm_num)).2.1

/-- C3: the streak walks backward from the anchor (today if logged, else
yesterday) while days are present: every step below the streak lands on a
logged day and the next step does not; it is 0 when neither today nor
yesterday is logged; histories of the last 3 or last 2 days give streaks
3 and 2, and the empty history gives 0. -/
theorem C3_streak :
    (∀ (days : Finset ℤ) (today : ℤ),
        (∀ k : ℕ, k < compute_streak days today →
          (if today ∈ days then today else today - 1) - (k : ℤ) ∈ days)
        ∧ (if today ∈ days then today else today - 1)
            - (compute_streak days today : ℤ) ∉ days)
    ∧ (∀ (days : Finset ℤ) (today : ℤ), today ∉ days → today - 1 ∉ days →
        compute_streak days today = 0)
    ∧ (∀ D : ℤ, compute_streak {D - 2, D - 1, D} D = 3)
    ∧ (∀ D : ℤ, compute_streak {D - 2, D - 1} D = 2)
    ∧ (∀ today : ℤ, compute_streak (∅ : Finset ℤ) today = 0) := by
  refine ⟨?_, ?_, ?_, ?_, compute_streak_empty⟩
  · intro days today
    unfold compute_streak
    exact walk_run days _
  · intro days today h1 h2
    unfold compute_streak
    rw [if_neg h1]
    exact walk_not_mem _ _ h2
  · intro D
    have hD : D ∈ ({D - 2, D - 1, D} : Finset ℤ) := by simp
    have hD1 : D - 1 ∈ ({D - 2, D - 1, D} : Finset ℤ) := by simp
    have hD2 : D - 2 ∈ ({D - 2, D - 1, D} : Finset ℤ) := by simp
    have hD3 : D - 3 ∉ ({D - 2, D - 1, D} : Finset ℤ) := by
      simp only [Finset.mem_insert, Finset.mem_singleton]
      omega
    unfold compute_streak
    rw [if_pos hD, walk_mem _ _ hD, walk_mem _ _ hD1,
      show D - 1 - 1 = D - 2 by ring, walk_mem _ _ hD2,
      show D - 2 - 1 = D - 3 by ring, walk_not_mem _ _ hD3]
  · intro D
    have hD : D ∉ ({D - 2, D - 1} : Finset ℤ) := by
      simp only [Finset.mem_insert, Finset.mem_singleton]
      omega
    have hD1 : D - 1 ∈ ({D - 2, D - 1} : Finset ℤ) := by simp
    have hD2 : D - 2 ∈ ({D - 2, D - 1} : Finset ℤ) := by simp
    have hD3 : D - 3 ∉ ({D - 2, D - 1} : Finset ℤ) := by
      simp only [Finset.mem_insert, Finset.mem_singleton]
      omega
    unfold compute_streak
    rw [if_neg hD, walk_mem _ _ hD1, show D - 1 - 1 = D - 2 by ring,
      walk_mem _ _ hD2, show D - 2 - 1 = D - 3 by ring, walk_not_mem _ _ hD3]

/-- C3 witness: on the empty day set with today = 0, neither today nor
yesterday is logged and the streak is 0. -/
theorem C3_streak_witness : compute_streak (∅ : Finset ℤ) 0 = 0 :=
  C3_streak.2.1 ∅ 0 (by simp) (by simp)

/-- C7: the three quests report (count in the last 7 days, 5),
(count since the first of the month, 20) and (current streak, 14); the
empty history yields counts of 0, and display progress is
`min(1, current/target)`, hence at most 1. -/
theorem C7_quests :
    (∀ (df : List CheckIn) (today monthStart : ℤ),
        (quest_status df today monthStart).weekly =
          ((df.filter (fun r => decide (today - 6 ≤ r.day) && decide (r.day ≤ today))).length, 5)
        ∧ (quest_status df today monthStart).monthly =
          ((df.filter (fun r => decide (monthStart ≤ r.day))).length, 20)
        ∧ (quest_status df today monthStart).streak = (compute_streak (daysOf df) today, 14))
    ∧ (∀ today monthStart : ℤ,
        quest_status [] today monthStart = ⟨(0, 5), (0, 20), (0, 14)⟩)
    ∧ (∀ cur target : ℕ,
        questProgress cur target = min 1 ((cur : ℚ) / (target : ℚ))
        ∧ questProgress cur target ≤ 1) := by
  refine ⟨fun df today monthStart => ⟨rfl, rfl, rfl⟩, ?_, fun cur target => ⟨rfl, min_le_left 1 _⟩⟩
  intro today monthStart
  unfold quest_status
  rw [show daysOf [] = (∅ : Finset ℤ) from rfl, compute_streak_empty]
  rfl

/-- C8: each of the seven achievements unlocks exactly when its condition
holds; the panel partitions the fixed declaration-ordered list into
unlocked and locked sublists each preserving that order; and since the
predicates are re-evaluated from current state, streak_7 is unlocked at
streak 7 but locked again at streak 0. -/
theorem C8_achievements (monthStart : ℤ) (df : List CheckIn) (xp : ℤ) (streak : ℕ) :
    achievements_panel df xp streak monthStart =
      ((achievements monthStart).filter (fun a => a.predicate df xp streak),
       (achievements monthStart).filter (fun a => !(a.predicate df xp streak)))
    ∧ (achievements monthStart).map (fun a => a.key) =
        ["first_blood", "streak_7", "streak_30", "month_14", "month_25", "xp_1000", "xp_5000"]
    ∧ ("first_blood" ∈ (achievements_panel df xp streak monthStart).1.map (fun a => a.key)
        ↔ 1 ≤ df.length)
    ∧ ("streak_7" ∈ (achievements_panel df xp streak monthStart).1.map (fun a => a.key)
        ↔ 7 ≤ streak)
    ∧ ("streak_30" ∈ (achievements_panel df xp streak monthStart).1.map (fun a => a.key)
        ↔ 30 ≤ streak)
    ∧ ("month_14" ∈ (achievements_panel df xp streak monthStart).1.map (fun a => a.key)
        ↔ 14 ≤ month_count df monthStart)
    ∧ ("month_25" ∈ (achievements_panel df xp streak monthStart).1.map (fun a => a.key)
        ↔ 25 ≤ month_count df monthStart)
    ∧ ("xp_1000" ∈ (achievements_panel df xp streak monthStart).1.map (fun a => a.key)
        ↔ 1000 ≤ xp)
    ∧ ("xp_5000" ∈ (achievements_panel df xp streak monthStart).1.map (fun a => a.key)
        ↔ 5000 ≤ xp)
    ∧ ("streak_7" ∈ (achievements_panel df xp streak monthStart).2.map (fun a => a.key)
        ↔ streak < 7)
    ∧ "streak_7" ∈ (achievements_panel df xp 7 monthStart).1.map (fun a => a.key)
    ∧ "streak_7" ∈ (achievements_panel df xp 0 monthStart).2.map (fun a => a.key) := by
  refine ⟨rfl, rfl, ?_, ?_, ?_, ?_, ?_, ?_, ?_, ?_, ?_, ?_⟩
  · rw [panel_unlocked_key_mem]
    simp [achievements]
  · rw [panel_unlocked_key_mem]
    simp [achievements]
  · rw [panel_unlocked_key_mem]
    simp [achievements]
  · rw [panel_unlocked_key_mem]
    simp [achievements]
  · rw [panel_unlocked_key_mem]
    simp [achievements]
  · rw [panel_unlocked_key_mem]
    simp [achievements]
  · rw [panel_unlocked_key_mem]
    simp [achievements]
  · rw [panel_locked_key_mem]
    simp [achievements]
  · rw [panel_unlocked_key_mem]
    simp [achievements]
  · rw [panel_locked_key_mem]
    simp [achievements]

/-- C9: for a non-empty history (the code renders no heatmap otherwise),
the window is exactly the 112 consecutive days ending at today; every
window day's cell, addressed by (day-of-week row, week column), holds the
number of check-ins on that day (tolerating counts above one); every
(row, column) pair of the 7 × 16 grid is covered by exactly such a day;
and the display buckets are 0 → empty, 1 → low, 2 → mid, 3+ → high. -/
theorem C9_heatmap (df : List CheckIn) (today : ℤ) (hne : df ≠ []) :
    ((windowDays today).length = 112
      ∧ (∀ d : ℤ, d ∈ windowDays today ↔ today - 111 ≤ d ∧ d ≤ today))
    ∧ (∀ d ∈ windowDays today,
        github_grid df today (dowRow d, weekCol today d) = countFor df d
        ∧ 0 ≤ dowRow d ∧ dowRow d < 7 ∧ 0 ≤ weekCol today d ∧ weekCol today d < 16)
    ∧ (∀ row col : ℤ, 0 ≤ row → row < 7 → 0 ≤ col → col < 16 →
        ∃ d ∈ windowDays today, dowRow d = row ∧ weekCol today d = col
          ∧ github_grid df today (row, col) = countFor df d)
    ∧ (∀ d : ℤ, countFor df d = (df.filter (fun r => decide (r.day = d))).length)
    ∧ (cell 0 = "⬛" ∧ cell 1 = "🟩" ∧ cell 2 = "🟦"
        ∧ ∀ v : ℕ, 3 ≤ v → cell v = "🟪") := by
  refine ⟨⟨windowDays_length today, windowDays_mem today⟩, ?_, ?_, fun d => rfl,
    rfl, rfl, rfl, ?_⟩
  · intro d hd
    have hb := (windowDays_mem today d).mp hd
    refine ⟨github_grid_eq df today d hd, ?_, ?_, ?_, ?_⟩
    · unfold dowRow
      omega
    · unfold dowRow
      omega
    · unfold weekCol windowStart
      omega
    · unfold weekCol windowStart
      omega
  · intro row col h1 h2 h3 h4
    obtain ⟨d, hd, hdow, hweek⟩ := grid_cover today row col ⟨h1, h2⟩ ⟨h3, h4⟩
    refine ⟨d, hd, hdow, hweek, ?_⟩
    rw [← hdow, ← hweek]
    exact github_grid_eq df today d hd
  · intro v hv
    unfold cell
    rw [if_neg (by omega), if_neg (by omega), if_neg (by omega)]

/-- C9 witness: instantiated at the singleton Standard check-in history on
day 0 with today = 0, the zero-count bucket is the empty cell. -/
theorem C9_heatmap_witness : cell 0 = "⬛" :=
  (C9_heatmap [⟨0, "Standard", 35, ""⟩] 0 (by simp)).2.2.2.2.1

end GymRPG
